import Mathlib

/-!
Verification of the M3-JSON-to-Snowflake converter core (src/App.js).

The converter is a React component whose logic-bearing parts are three
functions: `mapM3TypeToSnowflake` (JSON-Schema property descriptor to
Snowflake column type), `convertToSnowflake` (Bronze DDL generation from a
parsed schema, storing the SQL and an error message in component state) and
`generateSilverFromBronze` (Silver dynamic-table query generation).

We embed them shallowly.  JavaScript strings are Lean `String`s; every
string primitive that the source uses (`includes`, `split`, the
first-occurrence `replace`, `toLowerCase`, `toUpperCase`, the `/\s+/g`
regex, `parseInt`) is modelled by an executable function on `List Char`.
JSON numbers appearing in `maximum` / `multipleOf` are modelled by the
constructor `JVal.num s` where `s` is the JavaScript `toString` rendering
of the number (so `0` and `-0` are both carried as "0"); JSON strings by
`JVal.str`.  JavaScript truthiness of such a value is therefore: a number
is falsy exactly when its rendering is "0", a string exactly when it is
empty.  `JSON.parse` itself is not modelled: the generators take the parse
outcome as an `Except String SchemaDocument` argument.
-/

namespace M3Snowflake

open List

/-- ASCII digit test, used to state canonical-decimal hypotheses. -/
def isDigitCh (c : Char) : Bool := decide ('0' ≤ c) && decide (c ≤ '9')

/-- JavaScript `s.includes(c)` for a single character. -/
def hasChar (c : Char) : List Char → Bool
  | [] => false
  | x :: xs => x = c || hasChar c xs

/-- JavaScript `s.replace(c, '')` for a single-character pattern:
only the first occurrence is removed. -/
def removeFirst (c : Char) : List Char → List Char
  | [] => []
  | x :: xs => if x = c then xs else x :: removeFirst c xs

/-- JavaScript `s.replace(c, d)` for single characters: only the first
occurrence is replaced. -/
def replaceFirstChar (c d : Char) : List Char → List Char
  | [] => []
  | x :: xs => if x = c then d :: xs else x :: replaceFirstChar c d xs

/-- JavaScript `s.split(c)` for a single-character separator: the list of
(possibly empty) chunks between occurrences of `c`.  Never returns `[]`. -/
def splitOnChar (c : Char) : List Char → List (List Char)
  | [] => [[]]
  | x :: xs =>
    if x = c then [] :: splitOnChar c xs
    else
      match splitOnChar c xs with
      | [] => [[x]]
      | p :: ps => (x :: p) :: ps

/-- Whether `pat` occurs at the start of `s`. -/
def startsList : List Char → List Char → Bool
  | [], _ => true
  | _ :: _, [] => false
  | p :: ps, x :: xs => p = x && startsList ps xs

/-- JavaScript `s.includes(pat)`: substring occurrence. -/
def hasSub (pat : List Char) : List Char → Bool
  | [] => startsList pat []
  | x :: xs => startsList pat (x :: xs) || hasSub pat xs

/-- JavaScript `s.toLowerCase()` (ASCII range, which covers the
identifiers the converter handles). -/
def lowerChars (l : List Char) : List Char := l.map Char.toLower

/-- Characters matched by the regex `\s` that can occur in the ASCII
schema titles the converter handles. -/
def isWsCh (c : Char) : Bool :=
  c = ' ' || c = '\t' || c = '\n' || c = '\x0d' || c = '\x0b' || c = '\x0c'

/-- Auxiliary state machine for `replace(/\s+/g, '_')`: the flag records
whether the previous character was whitespace (a run already opened). -/
def collapseWsAux : Bool → List Char → List Char
  | _, [] => []
  | prevWs, c :: cs =>
    if isWsCh c then
      if prevWs then collapseWsAux true cs else '_' :: collapseWsAux true cs
    else c :: collapseWsAux false cs

/-- JavaScript `s.replace(/\s+/g, '_')`: each maximal whitespace run
becomes a single underscore. -/
def collapseWs (l : List Char) : List Char := collapseWsAux false l

/-- Numeric value of a digit string (used only inside `jsParseInt`). -/
def digitsToNat (l : List Char) : Nat :=
  l.foldl (fun n c => n * 10 + (c.toNat - '0'.toNat)) 0

/-- Leading-digit parse: `none` models `NaN` (no digits at all). -/
def digitsPre (s : List Char) : Option Nat :=
  let ds := s.takeWhile isDigitCh
  if ds = [] then none else some (digitsToNat ds)

/-- JavaScript `parseInt` restricted to what exponent strings need:
an optional sign followed by leading digits; `none` models `NaN`. -/
def jsParseInt (s : List Char) : Option Int :=
  match s with
  | [] => none
  | c :: rest =>
    if c = '-' then (digitsPre rest).map (fun n => -(n : Int))
    else if c = '+' then (digitsPre rest).map (fun n => (n : Int))
    else (digitsPre s).map (fun n => (n : Int))

/-- A scalar JSON value stored in `maximum` / `multipleOf`: a number
(carried as its JavaScript `toString` rendering) or a string. -/
inductive JVal where
  | num (s : String)
  | str (s : String)
deriving DecidableEq

/-- JavaScript `v.toString()`. -/
def JVal.jsToString : JVal → String
  | num s => s
  | str s => s

/-- JavaScript truthiness of the value.  A JSON number is falsy exactly
when it is `0` or `-0`, both of which render as "0"; a string exactly
when it is empty. -/
def JVal.truthy : JVal → Bool
  | num s => s ≠ "0"
  | str s => s ≠ ""

/-- One column's metadata (`PropertyDescriptor` of the spec).  The JSON
fields `x-position` and `x-dateTimeFormat` are not valid Lean names and
become `xPosition` / `xDateTimeFormat`. -/
structure PropertyDescriptor where
  type : Option String := none
  format : Option String := none
  maximum : Option JVal := none
  multipleOf : Option JVal := none
  xPosition : Option Int := none
  xDateTimeFormat : Option String := none
  description : Option String := none
deriving DecidableEq

/-- The parsed input (`SchemaDocument` of the spec).  `properties` keeps
the JSON insertion order (the converter's column names are plain
identifiers, for which `Object.entries` preserves insertion order). -/
structure SchemaDocument where
  title : Option String := none
  description : Option String := none
  properties : Option (List (String × PropertyDescriptor)) := none
  required : Option (List String) := none
deriving DecidableEq

/-- App.js lines 25-33: does this field make `hasDecimals` true?  The
JavaScript condition is `field && field.toString().includes('.')`. -/
def fracHas (o : Option JVal) : Bool :=
  match o with
  | some v => v.truthy && hasChar '.' v.jsToString.data
  | none => false

/-- App.js lines 25-33 folded into one selector: the field whose string
supplies `hasDecimals` and the scale (`multipleOf` first, else
`maximum`), if any. -/
def fracSource (multipleOf maximum : Option JVal) : Option JVal :=
  if fracHas multipleOf then multipleOf
  else if fracHas maximum then maximum
  else none

/-- App.js lines 27/32: `v.toString().split('.')[1]?.length || 0`. -/
def jsScaleOf (v : JVal) : Nat :=
  ((splitOnChar '.' v.jsToString.data).getD 1 []).length

/-- App.js lines 36-46: the precision computed from `maximum`.  `none`
models the `NaN` produced when `parseInt` fails on the exponent part. -/
def jsPrecisionOf (maximum : Option JVal) : Option Nat :=
  match maximum with
  | some v =>
    if v.truthy then
      let maxStr := replaceFirstChar 'E' 'e' v.jsToString.data
      if hasChar 'e' maxStr then
        let mantissa := (splitOnChar 'e' maxStr).getD 0 []
        let exponent := (splitOnChar 'e' maxStr).getD 1 []
        match jsParseInt exponent with
        | some ex => some (ex.natAbs + (removeFirst '-' (removeFirst '.' mantissa)).length)
        | none => none
      else some (removeFirst '-' (removeFirst '.' maxStr)).length
    else some 38
  | none => some 38

/-- Rendering of the (possibly `NaN`) precision into the template
`NUMBER(${precision}, ${scale})`. -/
def renderPrec : Option Nat → String
  | some q => toString q
  | none => "NaN"

/-- App.js lines 21-52: the `type === 'number'` branch. -/
def numberTypeOf (multipleOf maximum : Option JVal) : String :=
  match fracSource multipleOf maximum with
  | some v =>
    "NUMBER(" ++ renderPrec ((jsPrecisionOf maximum).map (fun q => min q 38))
      ++ ", " ++ toString (jsScaleOf v) ++ ")"
  | none => "NUMBER"

/-- App.js lines 13-57: the type mapper. -/
def mapM3TypeToSnowflake (p : PropertyDescriptor) : String :=
  if p.format = some "date-time" then "DATETIME"
  else if p.xDateTimeFormat = some "epoch-millis" then "NUMBER"
  else if p.type = some "boolean" then "BOOLEAN"
  else if p.type = some "integer" then "INTEGER"
  else if p.type = some "number" then numberTypeOf p.multipleOf p.maximum
  else if p.type = some "string" then "STRING"
  else if p.type = some "object" then "STRING"
  else "STRING"

/-- The effective ordering key of App.js lines 73-75 and 119-121:
`propDef['x-position'] || 999`.  An `x-position` of `0` is falsy in
JavaScript, so it falls back to 999 exactly like an absent one. -/
def effPos (d : PropertyDescriptor) : Int :=
  match d.xPosition with
  | some p => if p = 0 then 999 else p
  | none => 999

/-- The comparator `(a, b) => (a[1]['x-position'] || 999) - (b[1]['x-position'] || 999)`
read as a binary relation. -/
def propLe (a b : String × PropertyDescriptor) : Prop := effPos a.2 ≤ effPos b.2

instance : DecidableRel propLe :=
  fun a b => inferInstanceAs (Decidable (effPos a.2 ≤ effPos b.2))

instance : IsTotal (String × PropertyDescriptor) propLe :=
  ⟨fun a b => Int.le_total (effPos a.2) (effPos b.2)⟩

instance : IsTrans (String × PropertyDescriptor) propLe :=
  ⟨fun _ _ _ h1 h2 => Int.le_trans h1 h2⟩

/-- App.js lines 73-75 / 119-121: `Object.entries(properties).sort(...)`.
ECMAScript guarantees `Array.prototype.sort` is stable and the comparator
is a consistent total preorder on the effective key, which pins the result
down uniquely; we realise it by the (stable) insertion sort. -/
def sortedProps (props : List (String × PropertyDescriptor)) : List (String × PropertyDescriptor) :=
  props.insertionSort propLe

/-- JavaScript `o || dflt` for an optional string: absent and empty are
both falsy. -/
def jsOrElse (o : Option String) (dflt : String) : String :=
  match o with
  | some s => if s = "" then dflt else s
  | none => dflt

/-- JavaScript truthiness of an optional string. -/
def strTruthy (o : Option String) : Bool :=
  match o with
  | some s => s ≠ ""
  | none => false

/-- App.js lines 64 / 123: `tableName || schema.title?.toUpperCase().replace(/\s+/g, '_') || 'UNKNOWN_TABLE'`. -/
def resolveTableName (tableName : String) (title : Option String) : String :=
  if tableName ≠ "" then tableName
  else
    match title with
    | some t =>
      let u := String.mk (collapseWs (t.data.map Char.toUpper))
      if u ≠ "" then u else "UNKNOWN_TABLE"
    | none => "UNKNOWN_TABLE"

/-- App.js lines 77-83: one rendered column line (the push into
`columns`).  The COMMENT clause is emitted only for a truthy
description; the single quotes are written as `\x27`. -/
def columnLine (required : List String) (nd : String × PropertyDescriptor) : String :=
  let snowflakeType := mapM3TypeToSnowflake nd.2
  let notNull := if required.contains nd.1 then " NOT NULL" else ""
  let comment :=
    match nd.2.description with
    | some d => if d = "" then "" else " COMMENT \x27" ++ d ++ "\x27"
    | none => ""
  "    " ++ nd.1 ++ " " ++ snowflakeType ++ notNull ++ comment

/-- App.js line 94: the fixed allow-list of primary-key names. -/
def pkAllowList : List String := ["CONO", "SUNO", "variationNumber", "timestamp", "deleted"]

/-- App.js lines 93-95: the predicate applied to each entry of
`required` (note: to `required` entries, not to column names). -/
def isPkCandidate (r : String) : Bool :=
  pkAllowList.contains r || hasSub ['i', 'd'] (lowerChars r.data)

/-- App.js lines 60-102: the SQL string built in the `try` block of
`convertToSnowflake` (the pure part, before `setSqlOutput`). -/
def convertToSnowflakeSql (schema : SchemaDocument) (tableName : String) : String :=
  let table := resolveTableName tableName schema.title
  let properties := schema.properties.getD []
  let required := schema.required.getD []
  let columns := (sortedProps properties).map (columnLine required)
  let pkCandidates := required.filter isPkCandidate
  let sql := "-- Table: " ++ table ++ "\n"
  let sql := sql ++ ("-- Description: " ++ jsOrElse schema.description "No description" ++ "\n")
  let sql := sql ++ ("CREATE OR ALTER TABLE " ++ table ++ " (\n")
  let sql := sql ++ String.intercalate ",\n" columns
  let sql := sql ++ "\n)"
  let sql := sql ++
    (if strTruthy schema.description then
      "\nCHANGE_TRACKING = TRUE" ++ ("\nCOMMENT = \x27" ++ schema.description.getD "" ++ "\x27")
    else "")
  let sql := sql ++
    (if pkCandidates.length > 0 then
      "\n\n-- Primary key:\n" ++
        ("-- ALTER TABLE " ++ table ++ " ADD PRIMARY KEY ("
          ++ String.intercalate ", " pkCandidates ++ ");\n")
    else "")
  sql

/-- The component state touched by the two generators. -/
structure AppState where
  jsonInput : String := ""
  sqlOutput : String := ""
  tableName : String := ""
  error : String := ""
  silverSql : String := ""
deriving DecidableEq

/-- App.js lines 60-107: `convertToSnowflake` as a state transition.
`parsed` is the outcome of `JSON.parse(jsonInput)`; on failure the
`catch` block stores the parser's message and clears the SQL output. -/
def convertToSnowflake (st : AppState) (parsed : Except String SchemaDocument) : AppState :=
  match parsed with
  | .ok schema =>
    { st with error := "", sqlOutput := convertToSnowflakeSql schema st.tableName }
  | .error msg =>
    { st with error := "Error parsing JSON: " ++ msg, sqlOutput := "" }

/-- App.js lines 127-131: one line of the BRONZE select list. -/
def silverLine (nd : String × PropertyDescriptor) : String :=
  if mapM3TypeToSnowflake nd.2 = "STRING" then "TRIM(" ++ nd.1 ++ ") AS " ++ nd.1
  else nd.1

/-- App.js lines 133-135: the fixed row-numbering projection. -/
def rowNumLine : String :=
  "ROW_NUMBER() OVER (PARTITION BY CONO, SUNO ORDER BY VARIATIONNUMBER DESC) AS ROW_NUM"

/-- App.js line 124: the fixed exclusion list. -/
def excludeCols : List String :=
  ["ACCOUNTINGENTITY", "VARIATIONNUMBER", "TIMESTAMP", "DELETED", "ARCHIVED", "ROW_NUM"]

/-- App.js lines 117-140: the Silver SQL string built in the `try` block
(literal braces of the `{{env}}` placeholders are written `\x7b\x7d`). -/
def silverSqlOf (schema : SchemaDocument) (tableName : String) : String :=
  let table := resolveTableName tableName schema.title
  let sortedP := sortedProps (schema.properties.getD [])
  let bronzeSelectLines := sortedP.map silverLine ++ [rowNumLine]
  "CREATE OR REPLACE DYNAMIC TABLE " ++ table
    ++ "\nTARGET_LAG= DOWNSTREAM\nWAREHOUSE=\x7b\x7benv\x7d\x7d_ANALYTICS_WH\nREFRESH_MODE = INCREMENTAL\nINITIALIZE=ON_CREATE\nAS\nWITH BRONZE AS (\n    SELECT "
    ++ String.intercalate ",\n           " bronzeSelectLines
    ++ ("\n    FROM \x7b\x7benv\x7d\x7d_BRONZE." ++ table ++ " b\n)\n\n")
    ++ ("SELECT *\n       EXCLUDE (" ++ String.intercalate ", " excludeCols
        ++ ")\nFROM BRONZE\nWHERE ROW_NUM = 1 AND DELETED = FALSE;\n")

/-- App.js lines 110-146: `generateSilverFromBronze`.  It returns the new
`silverSql` state value and throws nothing: empty input and parse failure
both produce placeholder strings.  `parsed` is the outcome of
`JSON.parse(jsonInput)`, consulted only when `jsonInput` is non-empty. -/
def generateSilverFromBronze (jsonInput : String) (tableName : String)
    (parsed : Except String SchemaDocument) : String :=
  if jsonInput = "" then "-- No JSON input available yet"
  else
    match parsed with
    | .ok schema => silverSqlOf schema tableName
    | .error msg => "-- Error generating silver query: " ++ msg

/-! ### Spec-side definitions

These definitions follow the wording of the specification (amended where a
counterexample forces it) and are compared against the source embeddings
above by the refinement theorems. -/

/-- Spec 4.2: "a comment line naming the table". -/
def ddlTableComment (table : String) : String := "-- Table: " ++ table ++ "\n"

/-- Spec 4.2: "a comment line with the schema description (or
"No description" when absent or empty)". -/
def ddlDescriptionComment (d : Option String) : String :=
  "-- Description: " ++ jsOrElse d "No description" ++ "\n"

/-- Spec 4.2: "the `CREATE OR ALTER TABLE <name> (` header". -/
def ddlHeader (table : String) : String := "CREATE OR ALTER TABLE " ++ table ++ " (\n"

/-- Spec 4.2: the two trailer lines `CHANGE_TRACKING = TRUE` and
`COMMENT = '<description>'`, present only when the description is
present and non-empty (truthy). -/
def ddlTrailer (d : Option String) : String :=
  if strTruthy d then
    "\nCHANGE_TRACKING = TRUE" ++ ("\nCOMMENT = \x27" ++ d.getD "" ++ "\x27")
  else ""

/-- Spec 4.2: the advisory primary-key suggestion, a pure SQL comment
(every line it contributes starts with `--`), appended only when the
candidate list is non-empty. -/
def ddlPkSuggestion (table : String) (cands : List String) : String :=
  if cands.length > 0 then
    "\n\n-- Primary key:\n" ++
      ("-- ALTER TABLE " ++ table ++ " ADD PRIMARY KEY ("
        ++ String.intercalate ", " cands ++ ");\n")
  else ""

/-- The DDL text assembled in the fixed order the spec describes: table
comment, description comment, header, comma-joined column lines, closing
parenthesis, optional trailer, optional commented primary-key
suggestion — and no terminating semicolon for the CREATE statement. -/
def ddlSpec (schema : SchemaDocument) (tableName : String) : String :=
  let table := resolveTableName tableName schema.title
  let required := schema.required.getD []
  ddlTableComment table
    ++ ddlDescriptionComment schema.description
    ++ ddlHeader table
    ++ String.intercalate ",\n" ((sortedProps (schema.properties.getD [])).map (columnLine required))
    ++ "\n)"
    ++ ddlTrailer schema.description
    ++ ddlPkSuggestion table (required.filter isPkCandidate)

/-- Spec 4.1, decimal resolution: number of digit characters of a string
(a canonical decimal string "with sign and decimal point stripped" has
exactly these characters left). -/
def countDigits (s : List Char) : Nat := (s.filter isDigitCh).length

/-- Spec 4.1: the fractional part of a field's decimal string
representation — the characters after the decimal point — when there is
one.  (A falsy field never has one: JavaScript renders the numbers 0 and
-0 as "0" and the only falsy string is empty.) -/
def specFracOf (o : Option JVal) : Option (List Char) :=
  match o with
  | some v =>
    (match splitOnChar '.' v.jsToString.data with
     | _ :: frac :: _ => some frac
     | _ => none)
  | none => none

/-- Spec 4.1 (amended): the precision.  Default 38; when `maximum` is
present and truthy, the digit count of its canonical decimal string —
for scientific notation `|exponent|` plus the digit count of the
mantissa without sign or decimal point, with `E` normalised to `e`
first — clamped to 38. -/
def specPrecision (maximum : Option JVal) : Nat :=
  match maximum with
  | some v =>
    if v.truthy then
      let norm := replaceFirstChar 'E' 'e' v.jsToString.data
      if hasChar 'e' norm then
        let mantissa := (splitOnChar 'e' norm).getD 0 []
        let exponent := (splitOnChar 'e' norm).getD 1 []
        min (((jsParseInt exponent).getD 0).natAbs + countDigits mantissa) 38
      else min (countDigits norm) 38
    else 38
  | none => 38

/-- Spec 4.1 (amended), decimal resolution for `type: "number"`: if
neither `multipleOf` nor, failing that, `maximum` has a fractional part,
plain `NUMBER`; otherwise `NUMBER(precision, scale)` with the scale the
digit count of whichever fractional part was found first and the
precision as in `specPrecision`. -/
def decimalResolutionSpec (multipleOf maximum : Option JVal) : String :=
  match specFracOf multipleOf with
  | some frac =>
    "NUMBER(" ++ toString (specPrecision maximum) ++ ", " ++ toString (countDigits frac) ++ ")"
  | none =>
    match specFracOf maximum with
    | some frac =>
      "NUMBER(" ++ toString (specPrecision maximum) ++ ", " ++ toString (countDigits frac) ++ ")"
    | none => "NUMBER"

/-! ### Canonical decimal strings

The spec speaks of the "canonical decimal string" of `maximum` /
`multipleOf`.  These predicates describe such strings structurally: an
optional minus sign, a non-empty digit run, an optional fractional part,
and for scientific notation an `e`, an optional sign and a non-empty
exponent digit run (JavaScript's `toString` only produces scientific
notation with this shape; we restrict mantissas in scientific notation to
be integral). -/

/-- A non-empty all-digit string. -/
def DigitStr (s : List Char) : Prop := s ≠ [] ∧ ∀ c ∈ s, isDigitCh c = true

/-- An optional leading minus sign. -/
def SignOpt (s : List Char) : Prop := s = [] ∨ s = ['-']

/-- A canonical plain (non-scientific) decimal string. -/
def PlainDec (s : List Char) : Prop :=
  ∃ sgn ip fp, SignOpt sgn ∧ DigitStr ip ∧
    ((fp = [] ∧ s = sgn ++ ip) ∨ (DigitStr fp ∧ s = sgn ++ ip ++ '.' :: fp))

/-- A canonical scientific-notation decimal string with integral
mantissa, e.g. "1e+21" or "-5e-7". -/
def SciDecInt (s : List Char) : Prop :=
  ∃ sgn ip esgn ed, SignOpt sgn ∧ DigitStr ip ∧
    (esgn = [] ∨ esgn = ['-'] ∨ esgn = ['+']) ∧ DigitStr ed ∧
    s = sgn ++ ip ++ 'e' :: (esgn ++ ed)

/-- A canonical decimal string. -/
def OkDec (s : List Char) : Prop := PlainDec s ∨ SciDecInt s

/-! ### Position rewriting (claim C10) -/

/-- Rewrites an explicit falsy `x-position` (the integer 0) to 999,
touching nothing else. -/
def posTo999IfFalsy (nd : String × PropertyDescriptor) : String × PropertyDescriptor :=
  (nd.1, { nd.2 with xPosition := if nd.2.xPosition = some 0 then some 999 else nd.2.xPosition })

/-- Applies a per-property rewrite to every property of a schema. -/
def mapSchemaProps (f : String × PropertyDescriptor → String × PropertyDescriptor)
    (schema : SchemaDocument) : SchemaDocument :=
  { schema with properties := schema.properties.map (List.map f) }

/-! ### Ordering lemmas -/

/-- The strict version of the ordering key comparison. -/
def propLt (a b : String × PropertyDescriptor) : Prop := effPos a.2 < effPos b.2

instance : IsAntisymm (String × PropertyDescriptor) propLt :=
  ⟨fun _ _ h1 h2 => absurd h1 (lt_asymm h2)⟩

theorem perm_sortedProps (l : List (String × PropertyDescriptor)) : sortedProps l ~ l :=
  List.perm_insertionSort propLe l

theorem sorted_sortedProps (l : List (String × PropertyDescriptor)) :
    (sortedProps l).Sorted propLe :=
  List.sorted_insertionSort propLe l

theorem filterKey_orderedInsert (k : Int) (a : String × PropertyDescriptor)
    (l : List (String × PropertyDescriptor)) :
    (l.orderedInsert propLe a).filter (fun x => effPos x.2 == k)
      = if effPos a.2 == k then a :: l.filter (fun x => effPos x.2 == k)
        else l.filter (fun x => effPos x.2 == k) := by
  induction l with
  | nil =>
    by_cases h : (effPos a.2 == k) = true <;> simp [List.filter_cons, h]
  | cons b bs ih =>
    by_cases hle : propLe a b
    · rw [List.orderedInsert, if_pos hle]
      by_cases h : (effPos a.2 == k) = true <;> simp [List.filter_cons, h]
    · rw [List.orderedInsert, if_neg hle]
      have hblt : effPos b.2 < effPos a.2 := lt_of_not_le hle
      by_cases h : (effPos a.2 == k) = true
      · have hb : (effPos b.2 == k) = false := by
          have hk : effPos a.2 = k := by simpa using h
          have : effPos b.2 ≠ k := by omega
          simpa using this
        simp [List.filter_cons, hb, ih, h]
      · have h' : (effPos a.2 == k) = false := by
          simpa using h
        simp [List.filter_cons, ih, h']

theorem filterKey_sortedProps (k : Int) (l : List (String × PropertyDescriptor)) :
    (sortedProps l).filter (fun x => effPos x.2 == k)
      = l.filter (fun x => effPos x.2 == k) := by
  induction l with
  | nil => rfl
  | cons x xs ih =>
    show ((sortedProps xs).orderedInsert propLe x).filter _ = _
    rw [filterKey_orderedInsert, ih]
    by_cases h : effPos x.2 == k <;> simp [List.filter, h]

/-- Two property lists that are permutations of one another and whose
effective positions are pairwise distinct sort identically. -/
theorem sortedProps_eq_of_perm {p1 p2 : List (String × PropertyDescriptor)}
    (hperm : p1 ~ p2)
    (hnd : p1.Pairwise fun a b => effPos a.2 ≠ effPos b.2) :
    sortedProps p1 = sortedProps p2 := by
  have hnd1 : (sortedProps p1).Pairwise (fun a b => effPos a.2 ≠ effPos b.2) :=
    ((perm_sortedProps p1).pairwise_iff (fun h => Ne.symm h)).mpr hnd
  have hnd2 : (sortedProps p2).Pairwise (fun a b => effPos a.2 ≠ effPos b.2) :=
    ((perm_sortedProps p2).pairwise_iff (fun h => Ne.symm h)).mpr
      ((hperm.pairwise_iff (fun h => Ne.symm h)).mp hnd)
  have hlt1 : (sortedProps p1).Sorted propLt :=
    ((sorted_sortedProps p1).and hnd1).imp fun h => lt_of_le_of_ne h.1 h.2
  have hlt2 : (sortedProps p2).Sorted propLt :=
    ((sorted_sortedProps p2).and hnd2).imp fun h => lt_of_le_of_ne h.1 h.2
  exact List.eq_of_perm_of_sorted
    ((perm_sortedProps p1).trans (hperm.trans (perm_sortedProps p2).symm)) hlt1 hlt2

/-- Sorting is idempotent. -/
theorem sortedProps_idem (l : List (String × PropertyDescriptor)) :
    sortedProps (sortedProps l) = sortedProps l :=
  (sorted_sortedProps l).insertionSort_eq

/-- Rewriting falsy positions to 999 commutes with sorting (it preserves
every effective position). -/
theorem effPos_posTo999IfFalsy (nd : String × PropertyDescriptor) :
    effPos (posTo999IfFalsy nd).2 = effPos nd.2 := by
  unfold posTo999IfFalsy effPos
  cases h : nd.2.xPosition with
  | none => simp [h]
  | some p =>
    by_cases hp : p = 0 <;> simp [h, hp]

theorem sortedProps_map_posTo999 (l : List (String × PropertyDescriptor)) :
    sortedProps (l.map posTo999IfFalsy) = (sortedProps l).map posTo999IfFalsy := by
  refine (List.map_insertionSort propLe propLe posTo999IfFalsy l ?_).symm
  intro a _ b _
  unfold propLe
  rw [effPos_posTo999IfFalsy, effPos_posTo999IfFalsy]

/-! ### Character-list lemmas -/

theorem hasChar_append (c : Char) (a b : List Char) :
    hasChar c (a ++ b) = (hasChar c a || hasChar c b) := by
  induction a with
  | nil => simp [hasChar]
  | cons x xs ih => simp [hasChar, ih, Bool.or_assoc]

theorem hasChar_eq_false {c : Char} {s : List Char} (h : ∀ x ∈ s, x ≠ c) :
    hasChar c s = false := by
  induction s with
  | nil => rfl
  | cons x xs ih =>
    have hx : x ≠ c := h x (List.mem_cons_self x xs)
    simp [hasChar, hx, ih fun y hy => h y (List.mem_cons_of_mem x hy)]

theorem digit_ne {x c : Char} (hx : isDigitCh x = true) (hc : isDigitCh c = false) : x ≠ c := by
  intro he
  rw [he, hc] at hx
  exact Bool.false_ne_true hx

theorem hasChar_digits {c : Char} {s : List Char}
    (h : ∀ x ∈ s, isDigitCh x = true) (hc : isDigitCh c = false) :
    hasChar c s = false :=
  hasChar_eq_false fun x hx => digit_ne (h x hx) hc

theorem splitOnChar_not_mem {c : Char} {s : List Char} (h : hasChar c s = false) :
    splitOnChar c s = [s] := by
  induction s with
  | nil => rfl
  | cons x xs ih =>
    simp only [hasChar, Bool.or_eq_false_iff] at h
    rw [splitOnChar, if_neg (by simpa using h.1), ih h.2]

theorem splitOnChar_first {c : Char} {a : List Char} (b : List Char)
    (h : hasChar c a = false) :
    splitOnChar c (a ++ c :: b) = a :: splitOnChar c b := by
  induction a with
  | nil => simp [splitOnChar]
  | cons x xs ih =>
    simp only [hasChar, Bool.or_eq_false_iff] at h
    rw [List.cons_append, splitOnChar, if_neg (by simpa using h.1), ih h.2]

theorem removeFirst_not_mem {c : Char} {s : List Char} (h : hasChar c s = false) :
    removeFirst c s = s := by
  induction s with
  | nil => rfl
  | cons x xs ih =>
    simp only [hasChar, Bool.or_eq_false_iff] at h
    rw [removeFirst, if_neg (by simpa using h.1), ih h.2]

theorem removeFirst_append {c : Char} {a : List Char} (b : List Char)
    (h : hasChar c a = false) :
    removeFirst c (a ++ c :: b) = a ++ b := by
  induction a with
  | nil => simp [removeFirst]
  | cons x xs ih =>
    simp only [hasChar, Bool.or_eq_false_iff] at h
    rw [List.cons_append, removeFirst, if_neg (by simpa using h.1), ih h.2, List.cons_append]

theorem replaceFirstChar_not_mem {c d : Char} {s : List Char} (h : hasChar c s = false) :
    replaceFirstChar c d s = s := by
  induction s with
  | nil => rfl
  | cons x xs ih =>
    simp only [hasChar, Bool.or_eq_false_iff] at h
    rw [replaceFirstChar, if_neg (by simpa using h.1), ih h.2]

theorem countDigits_append (a b : List Char) :
    countDigits (a ++ b) = countDigits a + countDigits b := by
  simp [countDigits, List.filter_append]

theorem countDigits_all {s : List Char} (h : ∀ x ∈ s, isDigitCh x = true) :
    countDigits s = s.length := by
  rw [countDigits, List.filter_eq_self.mpr h]

theorem countDigits_nondigit_cons {c : Char} (s : List Char) (hc : isDigitCh c = false) :
    countDigits (c :: s) = countDigits s := by
  simp [countDigits, List.filter_cons, hc]

theorem digitsPre_all {s : List Char} (h : DigitStr s) : digitsPre s = some (digitsToNat s) := by
  rw [digitsPre]
  have ht : s.takeWhile isDigitCh = s := List.takeWhile_eq_self_iff.mpr h.2
  simp only [ht]
  rw [if_neg h.1]

theorem jsParseInt_sign_digits {esgn ed : List Char}
    (hs : esgn = [] ∨ esgn = ['-'] ∨ esgn = ['+']) (hd : DigitStr ed) :
    ∃ z : Int, jsParseInt (esgn ++ ed) = some z := by
  rcases hs with h | h | h
  · subst h
    rw [List.nil_append]
    cases hed : ed with
    | nil => exact absurd hed hd.1
    | cons d ds =>
      have hdd : isDigitCh d = true := hd.2 d (by rw [hed]; exact List.mem_cons_self d ds)
      have h1 : d ≠ '-' := digit_ne hdd (by decide)
      have h2 : d ≠ '+' := digit_ne hdd (by decide)
      rw [jsParseInt, if_neg h1, if_neg h2, ← hed, digitsPre_all hd]
      exact ⟨(digitsToNat ed : Int), rfl⟩
  · subst h
    rw [List.cons_append, List.nil_append, jsParseInt, if_pos rfl, digitsPre_all hd]
    exact ⟨-(digitsToNat ed : Int), rfl⟩
  · subst h
    rw [List.cons_append, List.nil_append, jsParseInt, if_neg (by decide), if_pos rfl,
      digitsPre_all hd]
    exact ⟨(digitsToNat ed : Int), rfl⟩

/-! ### Canonical-decimal lemmas -/

theorem signOpt_hasChar {sgn : List Char} (h : SignOpt sgn) {c : Char}
    (hm : ('-' : Char) ≠ c) : hasChar c sgn = false := by
  rcases h with h | h <;> subst h <;> simp [hasChar, hm]

theorem esgnOpt_hasChar {esgn : List Char} (h : esgn = [] ∨ esgn = ['-'] ∨ esgn = ['+'])
    {c : Char} (hm : ('-' : Char) ≠ c) (hp : ('+' : Char) ≠ c) : hasChar c esgn = false := by
  rcases h with h | h | h <;> subst h <;> simp [hasChar, hm, hp]

theorem hasChar_signOpt_digits {sgn ip : List Char} (hsgn : SignOpt sgn)
    (hip : ∀ x ∈ ip, isDigitCh x = true) {c : Char}
    (hm : ('-' : Char) ≠ c) (hc : isDigitCh c = false) :
    hasChar c (sgn ++ ip) = false := by
  rw [hasChar_append, signOpt_hasChar hsgn hm, hasChar_digits hip hc]
  rfl

theorem plainDec_noEe {s : List Char} (h : PlainDec s) :
    hasChar 'E' s = false ∧ hasChar 'e' s = false := by
  obtain ⟨sgn, ip, fp, hsgn, hip, hrest⟩ := h
  rcases hrest with ⟨_, hs⟩ | ⟨hfp, hs⟩ <;> subst hs
  · exact ⟨hasChar_signOpt_digits hsgn hip.2 (by decide) (by decide),
      hasChar_signOpt_digits hsgn hip.2 (by decide) (by decide)⟩
  · constructor <;>
      rw [hasChar_append, hasChar_signOpt_digits hsgn hip.2 (by decide) (by decide),
        hasChar, hasChar_digits hfp.2 (by decide)] <;> rfl

theorem removeMinus_len {sgn rest : List Char} (hsgn : SignOpt sgn)
    (hrest : ∀ x ∈ rest, isDigitCh x = true) :
    (removeFirst '-' (sgn ++ rest)).length = rest.length := by
  rcases hsgn with h | h <;> subst h
  · rw [List.nil_append, removeFirst_not_mem (hasChar_digits hrest (by decide))]
  · rw [List.singleton_append, removeFirst, if_pos rfl]

theorem countDigits_signOpt {sgn : List Char} (rest : List Char) (hsgn : SignOpt sgn) :
    countDigits (sgn ++ rest) = countDigits rest := by
  rcases hsgn with h | h <;> subst h
  · rw [List.nil_append]
  · rw [List.singleton_append, countDigits_nondigit_cons rest (by decide)]

theorem plainDec_len {s : List Char} (h : PlainDec s) :
    (removeFirst '-' (removeFirst '.' s)).length = countDigits s := by
  obtain ⟨sgn, ip, fp, hsgn, hip, hrest⟩ := h
  rcases hrest with ⟨hfp, hs⟩ | ⟨hfp, hs⟩ <;> subst hs
  · rw [removeFirst_not_mem (hasChar_signOpt_digits hsgn hip.2 (by decide) (by decide)),
      removeMinus_len hsgn hip.2, countDigits_signOpt ip hsgn, countDigits_all hip.2]
  · rw [removeFirst_append fp (hasChar_signOpt_digits hsgn hip.2 (by decide) (by decide)),
      List.append_assoc,
      removeMinus_len hsgn (fun x hx => by
        rcases List.mem_append.mp hx with hh | hh
        · exact hip.2 x hh
        · exact hfp.2 x hh),
      List.length_append, List.append_assoc, countDigits_signOpt _ hsgn, countDigits_append,
      countDigits_nondigit_cons fp (by decide), countDigits_all hip.2, countDigits_all hfp.2]

theorem okDec_dot {s : List Char} (h : OkDec s) :
    (hasChar '.' s = false ∧ splitOnChar '.' s = [s])
    ∨ ∃ pre frac, DigitStr frac ∧ hasChar '.' s = true ∧ splitOnChar '.' s = [pre, frac] := by
  rcases h with hplain | hsci
  · obtain ⟨sgn, ip, fp, hsgn, hip, hrest⟩ := hplain
    rcases hrest with ⟨_, hs⟩ | ⟨hfp, hs⟩ <;> subst hs
    · have hnd : hasChar '.' (sgn ++ ip) = false :=
        hasChar_signOpt_digits hsgn hip.2 (by decide) (by decide)
      exact Or.inl ⟨hnd, splitOnChar_not_mem hnd⟩
    · have hnd : hasChar '.' (sgn ++ ip) = false :=
        hasChar_signOpt_digits hsgn hip.2 (by decide) (by decide)
      refine Or.inr ⟨sgn ++ ip, fp, hfp, ?_, ?_⟩
      · rw [hasChar_append, hnd, hasChar]
        simp
      · rw [splitOnChar_first fp hnd,
          splitOnChar_not_mem (hasChar_digits hfp.2 (by decide))]
  · obtain ⟨sgn, ip, esgn, ed, hsgn, hip, hesgn, hed, hs⟩ := hsci
    subst hs
    have hnd : hasChar '.' ((sgn ++ ip) ++ 'e' :: (esgn ++ ed)) = false := by
      rw [hasChar_append, hasChar_signOpt_digits hsgn hip.2 (by decide) (by decide), hasChar,
        hasChar_append, esgnOpt_hasChar hesgn (by decide) (by decide),
        hasChar_digits hed.2 (by decide)]
      rfl
    exact Or.inl ⟨hnd, splitOnChar_not_mem hnd⟩

theorem sciDec_split {s : List Char} (h : SciDecInt s) :
    hasChar 'E' s = false ∧ hasChar 'e' s = true ∧
    ∃ mant expo z, splitOnChar 'e' s = [mant, expo] ∧ jsParseInt expo = some z ∧
      (removeFirst '-' (removeFirst '.' mant)).length = countDigits mant := by
  obtain ⟨sgn, ip, esgn, ed, hsgn, hip, hesgn, hed, hs⟩ := h
  subst hs
  have hm : hasChar 'e' (sgn ++ ip) = false :=
    hasChar_signOpt_digits hsgn hip.2 (by decide) (by decide)
  refine ⟨?_, ?_, sgn ++ ip, esgn ++ ed, ?_⟩
  · rw [hasChar_append, hasChar_signOpt_digits hsgn hip.2 (by decide) (by decide), hasChar,
      hasChar_append, esgnOpt_hasChar hesgn (by decide) (by decide),
      hasChar_digits hed.2 (by decide)]
    rfl
  · rw [hasChar_append, hm, hasChar]
    simp
  · obtain ⟨z, hz⟩ := jsParseInt_sign_digits hesgn hed
    refine ⟨z, ?_, hz, ?_⟩
    · rw [splitOnChar_first (esgn ++ ed) hm,
        splitOnChar_not_mem (by
          rw [hasChar_append, esgnOpt_hasChar hesgn (by decide) (by decide),
            hasChar_digits hed.2 (by decide)]
          rfl)]
    · rw [removeFirst_not_mem (hasChar_signOpt_digits hsgn hip.2 (by decide) (by decide)),
        removeMinus_len hsgn hip.2, countDigits_signOpt ip hsgn, countDigits_all hip.2]

/-! ### Decimal-resolution refinement -/

theorem notTruthy_no_dot {v : JVal} (h : v.truthy = false) :
    hasChar '.' v.jsToString.data = false := by
  cases v with
  | num s =>
    have hs : s = "0" := by simpa [JVal.truthy] using h
    subst hs
    decide
  | str s =>
    have hs : s = "" := by simpa [JVal.truthy] using h
    subst hs
    decide

theorem fracHas_eq_dot (v : JVal) :
    fracHas (some v) = hasChar '.' v.jsToString.data := by
  cases hv : v.truthy
  · simp [fracHas, hv, notTruthy_no_dot hv]
  · simp [fracHas, hv]

theorem fracHas_none : fracHas none = false := rfl

theorem precisionMap_eq {x : Option JVal} (hx : ∀ v ∈ x, OkDec v.jsToString.data) :
    (jsPrecisionOf x).map (fun q => min q 38) = some (specPrecision x) := by
  cases x with
  | none => rfl
  | some v =>
    have hok : OkDec v.jsToString.data := hx v rfl
    cases hv : v.truthy with
    | false => simp [jsPrecisionOf, specPrecision, hv]
    | true =>
      rcases hok with hplain | hsci
      · obtain ⟨hE, he⟩ := plainDec_noEe hplain
        simp only [jsPrecisionOf, specPrecision, hv, if_true, replaceFirstChar_not_mem hE, he,
          Bool.false_eq_true, if_false, plainDec_len hplain]
        rfl
      · obtain ⟨hE, he, mant, expo, z, hsplit, hz, hlen⟩ := sciDec_split hsci
        simp only [jsPrecisionOf, specPrecision, hv, if_true, replaceFirstChar_not_mem hE, he,
          hsplit, List.getD_cons_zero, List.getD_cons_succ, hz, hlen]
        rfl

theorem numberTypeOf_eq_spec {m x : Option JVal}
    (hm : ∀ v ∈ m, OkDec v.jsToString.data)
    (hx : ∀ v ∈ x, OkDec v.jsToString.data) :
    numberTypeOf m x = decimalResolutionSpec m x := by
  have hrender : renderPrec ((jsPrecisionOf x).map fun q => min q 38)
      = toString (specPrecision x) := by
    rw [precisionMap_eq hx]
    rfl
  have hxside : numberTypeOf none x = decimalResolutionSpec none x := by
    cases x with
    | none => rfl
    | some v =>
      rcases okDec_dot (hx v rfl) with ⟨hnd, hsplit⟩ | ⟨pre, frac, hfrac, hd, hsplit⟩
      · simp [numberTypeOf, fracSource, fracHas_eq_dot, fracHas_none, hnd,
          decimalResolutionSpec, specFracOf, hsplit]
      · simp [numberTypeOf, fracSource, fracHas_eq_dot, fracHas_none, hd,
          decimalResolutionSpec, specFracOf, hsplit, jsScaleOf, hrender,
          countDigits_all hfrac.2]
  cases m with
  | none => exact hxside
  | some u =>
    rcases okDec_dot (hm u rfl) with ⟨hndu, hsplitu⟩ | ⟨preu, fracu, hfracu, hdu, hsplitu⟩
    · have h1 : numberTypeOf (some u) x = numberTypeOf none x := by
        simp [numberTypeOf, fracSource, fracHas_eq_dot, fracHas_none, hndu]
      have h2 : decimalResolutionSpec (some u) x = decimalResolutionSpec none x := by
        simp [decimalResolutionSpec, specFracOf, hsplitu]
      rw [h1, h2, hxside]
    · simp [numberTypeOf, fracSource, fracHas_eq_dot, fracHas_none, hdu,
        decimalResolutionSpec, specFracOf, hsplitu, jsScaleOf, hrender,
        countDigits_all hfracu.2]

/-! ### Generator congruence lemmas -/

theorem columnLine_posTo999 (req : List String) (nd : String × PropertyDescriptor) :
    columnLine req (posTo999IfFalsy nd) = columnLine req nd := rfl

theorem silverLine_posTo999 (nd : String × PropertyDescriptor) :
    silverLine (posTo999IfFalsy nd) = silverLine nd := rfl

theorem map_columnLine_posTo999 (req : List String) (l : List (String × PropertyDescriptor)) :
    (l.map posTo999IfFalsy).map (columnLine req) = l.map (columnLine req) := by
  induction l with
  | nil => rfl
  | cons x xs ih => simp [columnLine_posTo999, ih]

theorem map_silverLine_posTo999 (l : List (String × PropertyDescriptor)) :
    (l.map posTo999IfFalsy).map silverLine = l.map silverLine := by
  induction l with
  | nil => rfl
  | cons x xs ih => simp [silverLine_posTo999, ih]

theorem convertSql_posTo999 (schema : SchemaDocument) (tableName : String) :
    convertToSnowflakeSql (mapSchemaProps posTo999IfFalsy schema) tableName
      = convertToSnowflakeSql schema tableName := by
  cases schema with
  | mk title desc props req =>
    cases props with
    | none => rfl
    | some l =>
      simp only [convertToSnowflakeSql, mapSchemaProps, Option.map_some', Option.getD_some]
      rw [sortedProps_map_posTo999, map_columnLine_posTo999]

theorem silverSqlOf_posTo999 (schema : SchemaDocument) (tableName : String) :
    silverSqlOf (mapSchemaProps posTo999IfFalsy schema) tableName
      = silverSqlOf schema tableName := by
  cases schema with
  | mk title desc props req =>
    cases props with
    | none => rfl
    | some l =>
      simp only [silverSqlOf, mapSchemaProps, Option.map_some', Option.getD_some]
      rw [sortedProps_map_posTo999, map_silverLine_posTo999]

theorem convertSql_congr_sorted {p1 p2 : List (String × PropertyDescriptor)}
    (h : sortedProps p1 = sortedProps p2) (title desc : Option String)
    (req : Option (List String)) (tableName : String) :
    convertToSnowflakeSql ⟨title, desc, some p1, req⟩ tableName
      = convertToSnowflakeSql ⟨title, desc, some p2, req⟩ tableName := by
  simp only [convertToSnowflakeSql, Option.getD_some]
  rw [h]

/-! ### Claim theorems -/

set_option maxRecDepth 40000

/-- Concrete schema for the C1 counterexample: a present-but-empty
description and a single string column. -/
def exC1 : SchemaDocument :=
  { description := some "",
    properties := some [("A", { type := some "string" })] }

/-- C1, counterexample.  The claim asserts a terminating `;` after the
trailer, and the description comment/trailers keyed on the description
being *present*.  On this schema the description is present (but empty):
the code emits "No description", no `CHANGE_TRACKING`/`COMMENT` trailer,
and the output ends at `)` with no terminating semicolon at all. -/
theorem C1_counterexample :
    convertToSnowflakeSql exC1 ""
      = "-- Table: UNKNOWN_TABLE\n-- Description: No description\nCREATE OR ALTER TABLE UNKNOWN_TABLE (\n    A STRING\n)"
    ∧ exC1.description = some ""
    ∧ (convertToSnowflakeSql exC1 "").data.getLast? ≠ some ';'
    ∧ hasSub ("CHANGE_TRACKING".data) ((convertToSnowflakeSql exC1 "").data) = false := by
  decide

/-- C1 (amended): for every parsed schema the DDL is emitted in the fixed
order: table comment line, description comment line (with
"No description" when the description is absent or empty), the
`CREATE OR ALTER TABLE <name> (` header, the comma-joined column lines
(each `<name> <sqlType>[ NOT NULL][ COMMENT '<description>']`), the
closing `)`, then — only when a non-empty description is present — the
`CHANGE_TRACKING = TRUE` and `COMMENT = '<description>'` trailer lines,
and finally — only when primary-key candidates exist — the commented
primary-key suggestion block.  No terminating `;` is emitted for the
CREATE statement (the only semicolon lives inside the commented
suggestion). -/
theorem C1_ddl_layout (schema : SchemaDocument) (tableName : String) :
    convertToSnowflakeSql schema tableName = ddlSpec schema tableName := rfl

/-- Concrete schema for the C2 counterexample: `A` is positioned at 1000
and `B` carries no `x-position`. -/
def exC2 : SchemaDocument :=
  { properties := some
      [ ("A", { type := some "string", xPosition := some 1000 }),
        ("B", { type := some "string" }) ] }

/-- C2, counterexample.  The claim says descriptors with no `x-position`
sort *after all positioned ones*; but the default is the key 999, so the
unpositioned `B` (effective 999) is emitted before the positioned `A`
(position 1000). -/
theorem C2_counterexample :
    (exC2.properties.getD []).map (fun nd => (nd.1, nd.2.xPosition))
      = [("A", some 1000), ("B", none)]
    ∧ (sortedProps (exC2.properties.getD [])).map Prod.fst = ["B", "A"]
    ∧ convertToSnowflakeSql exC2 ""
      = "-- Table: UNKNOWN_TABLE\n-- Description: No description\nCREATE OR ALTER TABLE UNKNOWN_TABLE (\n    B STRING,\n    A STRING\n)" := by
  decide

/-- C2 (amended): in every generated artifact the column order is a
stable sort of the properties by effective position ascending — the
effective position is `x-position` when present and non-zero, else 999 —
with ties broken by original insertion order (so unpositioned
descriptors sort after all properties positioned below 999 and before
those positioned above 999).  Stability is stated as: the sort is a
permutation, it is sorted by the effective key, and the subsequence of
entries at any fixed key is unchanged.  Both generators consume exactly
this ordering: the DDL equals the section-wise `ddlSpec` rendering over
`sortedProps`, and the Silver query renders its select lines by mapping
over `sortedProps`. -/
theorem C2_stable_sort :
    (∀ props : List (String × PropertyDescriptor),
      sortedProps props ~ props
      ∧ (sortedProps props).Sorted propLe
      ∧ ∀ k : Int, (sortedProps props).filter (fun nd => effPos nd.2 == k)
          = props.filter (fun nd => effPos nd.2 == k))
    ∧ (∀ d : PropertyDescriptor, effPos { d with xPosition := none } = 999)
    ∧ (∀ d : PropertyDescriptor, ∀ p : Int,
        effPos { d with xPosition := some p } = if p = 0 then 999 else p)
    ∧ (∀ schema tableName, convertToSnowflakeSql schema tableName = ddlSpec schema tableName)
    ∧ (∀ schema tableName, silverSqlOf schema tableName
        = "CREATE OR REPLACE DYNAMIC TABLE " ++ resolveTableName tableName schema.title
          ++ "\nTARGET_LAG= DOWNSTREAM\nWAREHOUSE=\x7b\x7benv\x7d\x7d_ANALYTICS_WH\nREFRESH_MODE = INCREMENTAL\nINITIALIZE=ON_CREATE\nAS\nWITH BRONZE AS (\n    SELECT "
          ++ String.intercalate ",\n           "
              ((sortedProps (schema.properties.getD [])).map silverLine ++ [rowNumLine])
          ++ ("\n    FROM \x7b\x7benv\x7d\x7d_BRONZE." ++ resolveTableName tableName schema.title ++ " b\n)\n\n")
          ++ ("SELECT *\n       EXCLUDE (" ++ String.intercalate ", " excludeCols
              ++ ")\nFROM BRONZE\nWHERE ROW_NUM = 1 AND DELETED = FALSE;\n")) :=
  ⟨fun props => ⟨perm_sortedProps props, sorted_sortedProps props,
      fun k => filterKey_sortedProps k props⟩,
    fun _ => rfl, fun _ _ => rfl, fun _ _ => rfl, fun _ _ => rfl⟩

/-- First schema for the C3 counterexample: two properties tied at
position 1. -/
def exC3a : SchemaDocument :=
  { properties := some
      [ ("A", { type := some "string", xPosition := some 1 }),
        ("B", { type := some "integer", xPosition := some 1 }) ] }

/-- Second schema for the C3 counterexample: the same two properties in
the opposite insertion order. -/
def exC3b : SchemaDocument :=
  { properties := some
      [ ("B", { type := some "integer", xPosition := some 1 }),
        ("A", { type := some "string", xPosition := some 1 }) ] }

/-- C3, counterexample.  The two schemas hold the same properties with
identical descriptors, merely in a different insertion order; because
both share `x-position` 1, the stable sort keeps the insertion order and
the generated DDL texts differ. -/
theorem C3_counterexample :
    (exC3a.properties.getD []) ~ (exC3b.properties.getD [])
    ∧ convertToSnowflakeSql exC3a "" ≠ convertToSnowflakeSql exC3b "" := by
  constructor
  · decide
  · decide

/-- C3 (amended): when the effective positions are pairwise distinct,
column ordering depends only on `x-position`: permuting the property
insertion order yields identical generated DDL; and sorting is
idempotent unconditionally. -/
theorem C3_order_independence (title desc : Option String) (req : Option (List String))
    (props1 props2 : List (String × PropertyDescriptor)) (tableName : String)
    (hperm : props1 ~ props2)
    (hdistinct : props1.Pairwise fun a b => effPos a.2 ≠ effPos b.2) :
    convertToSnowflakeSql ⟨title, desc, some props1, req⟩ tableName
      = convertToSnowflakeSql ⟨title, desc, some props2, req⟩ tableName
    ∧ ∀ props, sortedProps (sortedProps props) = sortedProps props :=
  ⟨convertSql_congr_sorted (sortedProps_eq_of_perm hperm hdistinct) title desc req tableName,
    sortedProps_idem⟩

/-- C3, witness: the amended theorem applied to a concrete permuted pair
with distinct positions. -/
theorem C3_witness :
    convertToSnowflakeSql
        ⟨none, none, some
          [ ("A", { type := some "string", xPosition := some 1 }),
            ("B", { type := some "string", xPosition := some 2 }) ], none⟩ ""
      = convertToSnowflakeSql
        ⟨none, none, some
          [ ("B", { type := some "string", xPosition := some 2 }),
            ("A", { type := some "string", xPosition := some 1 }) ], none⟩ ""
    ∧ ∀ props, sortedProps (sortedProps props) = sortedProps props :=
  C3_order_independence none none none _ _ "" (by decide) (by decide)

/-- C4: `format: "date-time"` wins over everything (any `type`,
including absent), and the epoch-millis rule fires right after it,
before any `type`-based rule. -/
theorem C4_datetime_precedence :
    (∀ p : PropertyDescriptor, p.format = some "date-time" →
      mapM3TypeToSnowflake p = "DATETIME")
    ∧ (∀ p : PropertyDescriptor, p.format ≠ some "date-time" →
        p.xDateTimeFormat = some "epoch-millis" → mapM3TypeToSnowflake p = "NUMBER") := by
  constructor
  · intro p h
    simp [mapM3TypeToSnowflake, h]
  · intro p h1 h2
    simp [mapM3TypeToSnowflake, h1, h2]

/-- C4, witness: the precedence theorem applied to an integer-typed
date-time descriptor and a number-typed epoch-millis descriptor. -/
theorem C4_witness :
    mapM3TypeToSnowflake { type := some "integer", format := some "date-time" } = "DATETIME"
    ∧ mapM3TypeToSnowflake { type := some "number", xDateTimeFormat := some "epoch-millis" }
      = "NUMBER" :=
  ⟨C4_datetime_precedence.1 _ rfl, C4_datetime_precedence.2 _ (by decide) rfl⟩

/-- C5, counterexample.  The claim computes the precision from `maximum`
whenever `maximum` is *present*; the code tests JavaScript truthiness, so
a present `maximum` of 0 (canonical string "0", digit count 1) leaves
the default precision 38: the code yields NUMBER(38, 1) where the claim
demands NUMBER(1, 1). -/
theorem C5_counterexample :
    mapM3TypeToSnowflake
        { type := some "number", multipleOf := some (.num "0.5"),
          maximum := some (.num "0") }
      = "NUMBER(38, 1)"
    ∧ countDigits ("0".data) = 1 := by
  decide

/-- C5 (amended): for a `number`-typed descriptor (no date-time format,
no epoch-millis hint) whose `maximum` / `multipleOf` carry canonical
decimal strings, the mapper agrees with the spec's decimal resolution,
with the amendment that the `maximum`-derived precision is used only
when `maximum` is present and truthy (a zero `maximum` leaves the
default 38). -/
theorem C5_number_resolution (p : PropertyDescriptor)
    (ht : p.type = some "number")
    (hf : p.format ≠ some "date-time")
    (he : p.xDateTimeFormat ≠ some "epoch-millis")
    (hm : ∀ v ∈ p.multipleOf, OkDec v.jsToString.data)
    (hx : ∀ v ∈ p.maximum, OkDec v.jsToString.data) :
    mapM3TypeToSnowflake p = decimalResolutionSpec p.multipleOf p.maximum := by
  have hstep : mapM3TypeToSnowflake p = numberTypeOf p.multipleOf p.maximum := by
    simp [mapM3TypeToSnowflake, hf, he, ht]
  rw [hstep, numberTypeOf_eq_spec hm hx]

/-- Canonical-decimal certificate for "0.01". -/
theorem okDec_001 : OkDec ("0.01".data) :=
  Or.inl ⟨[], ['0'], ['0', '1'], Or.inl rfl, ⟨by decide, by decide⟩,
    Or.inr ⟨⟨by decide, by decide⟩, by decide⟩⟩

/-- Canonical-decimal certificate for "999.99". -/
theorem okDec_99999 : OkDec ("999.99".data) :=
  Or.inl ⟨[], ['9', '9', '9'], ['9', '9'], Or.inl rfl, ⟨by decide, by decide⟩,
    Or.inr ⟨⟨by decide, by decide⟩, by decide⟩⟩

/-- Canonical-decimal certificate for "500". -/
theorem okDec_500 : OkDec ("500".data) :=
  Or.inl ⟨[], ['5', '0', '0'], [], Or.inl rfl, ⟨by decide, by decide⟩,
    Or.inl ⟨rfl, by decide⟩⟩

/-- Lifts a canonical-decimal certificate over `some`. -/
theorem okDec_forall_some {w : JVal} (h : OkDec w.jsToString.data) :
    ∀ v ∈ some w, OkDec v.jsToString.data := by
  intro v hv
  have hh := Option.mem_def.mp hv
  injection hh with hh2
  exact hh2 ▸ h

/-- Vacuous canonical-decimal certificate for an absent field. -/
theorem okDec_forall_none : ∀ v ∈ (none : Option JVal), OkDec v.jsToString.data := by
  intro v hv
  simp at hv

/-- C5, witness: the resolution theorem applied to the spec's two
examples, which evaluate to NUMBER(5, 2) and plain NUMBER. -/
theorem C5_witness :
    mapM3TypeToSnowflake
        { type := some "number", multipleOf := some (.num "0.01"),
          maximum := some (.num "999.99") }
      = decimalResolutionSpec (some (.num "0.01")) (some (.num "999.99"))
    ∧ mapM3TypeToSnowflake
        { type := some "number", multipleOf := some (.num "0.01"),
          maximum := some (.num "999.99") }
      = "NUMBER(5, 2)"
    ∧ mapM3TypeToSnowflake { type := some "number", maximum := some (.num "500") }
      = decimalResolutionSpec none (some (.num "500"))
    ∧ mapM3TypeToSnowflake { type := some "number", maximum := some (.num "500") }
      = "NUMBER" :=
  ⟨C5_number_resolution _ rfl (by decide) (by decide)
      (okDec_forall_some okDec_001) (okDec_forall_some okDec_99999),
    by decide,
    C5_number_resolution _ rfl (by decide) (by decide)
      okDec_forall_none (okDec_forall_some okDec_500),
    by decide⟩

/-- C6: the mapper is a total function (it is defined for every
descriptor and, by construction, never throws), and any descriptor whose
`type` is absent or unrecognized — once the date-time and epoch-millis
rules do not fire — falls through to the default STRING. -/
theorem C6_default_string (p : PropertyDescriptor)
    (hf : p.format ≠ some "date-time")
    (he : p.xDateTimeFormat ≠ some "epoch-millis")
    (ht : ∀ t ∈ p.type, t ∉ (["boolean", "integer", "number", "string", "object"] : List String)) :
    mapM3TypeToSnowflake p = "STRING" := by
  cases htype : p.type with
  | none => simp [mapM3TypeToSnowflake, hf, he, htype]
  | some t =>
    have h := ht t (by rw [htype]; exact Option.mem_def.mpr rfl)
    simp only [List.mem_cons, List.not_mem_nil, or_false, not_or] at h
    obtain ⟨h1, h2, h3, h4, h5⟩ := h
    simp [mapM3TypeToSnowflake, hf, he, htype, h1, h2, h3, h4, h5]

/-- C6, witness: the default theorem applied to an unrecognized type and
to an absent type. -/
theorem C6_witness :
    mapM3TypeToSnowflake { type := some "array" } = "STRING"
    ∧ mapM3TypeToSnowflake {} = "STRING" :=
  ⟨C6_default_string _ (by decide) (by decide)
      (by
        intro t htm
        have hh := Option.mem_def.mp htm
        injection hh with hh2
        subst hh2
        decide),
    C6_default_string _ (by decide) (by decide)
      (by
        intro t htm
        simp at htm)⟩

/-- The DDL text up to (and excluding) the primary-key suggestion. -/
def ddlBase (schema : SchemaDocument) (tableName : String) : String :=
  let table := resolveTableName tableName schema.title
  ddlTableComment table
    ++ ddlDescriptionComment schema.description
    ++ ddlHeader table
    ++ String.intercalate ",\n"
        ((sortedProps (schema.properties.getD [])).map (columnLine (schema.required.getD [])))
    ++ "\n)"
    ++ ddlTrailer schema.description

/-- Concrete schema for the C7 counterexample: no properties at all, but
a `required` entry "id". -/
def exC7 : SchemaDocument := { properties := some [], required := some ["id"] }

/-- C7, counterexample.  The claim keys the suggestion on a *column
name* qualifying; the code filters the `required` array itself, so a
required entry that names no column still produces the primary-key
comment. -/
theorem C7_counterexample :
    (exC7.properties.getD []) = []
    ∧ convertToSnowflakeSql exC7 ""
      = "-- Table: UNKNOWN_TABLE\n-- Description: No description\nCREATE OR ALTER TABLE UNKNOWN_TABLE (\n\n)\n\n-- Primary key:\n-- ALTER TABLE UNKNOWN_TABLE ADD PRIMARY KEY (id);\n"
    ∧ hasSub ("PRIMARY KEY".data) ((convertToSnowflakeSql exC7 "").data) = true := by
  decide

/-- C7 (amended): the primary-key suggestion appears iff at least one
entry of `required` (whether or not it names a column) is in the fixed
allow-list or contains "id" case-insensitively; the candidates keep
their `required`-array order (the filter is a sublist of `required`);
and the suggestion is emitted purely as SQL comments — both suggestion
lines start with `--`. -/
theorem C7_pk_comment (schema : SchemaDocument) (tableName : String) :
    (∀ r : String, r ∈ (schema.required.getD []).filter isPkCandidate ↔
        (r ∈ schema.required.getD []
          ∧ (r ∈ pkAllowList ∨ hasSub ['i', 'd'] (lowerChars r.data) = true)))
    ∧ ((schema.required.getD []).filter isPkCandidate).Sublist (schema.required.getD [])
    ∧ convertToSnowflakeSql schema tableName
        = ddlBase schema tableName
          ++ ddlPkSuggestion (resolveTableName tableName schema.title)
              ((schema.required.getD []).filter isPkCandidate)
    ∧ (∀ (table : String) (cands : List String), ddlPkSuggestion table cands
        = if cands.length > 0 then
            "\n\n" ++ ("-- " ++ "Primary key:") ++ "\n"
              ++ ("-- " ++ ("ALTER TABLE " ++ table ++ " ADD PRIMARY KEY ("
                    ++ String.intercalate ", " cands ++ ");")) ++ "\n"
          else "") := by
  refine ⟨fun r => ?_, List.filter_sublist _, rfl, fun table cands => ?_⟩
  · simp [List.mem_filter, isPkCandidate, List.contains, pkAllowList]
  · by_cases h : cands.length > 0
    · rw [ddlPkSuggestion, if_pos h, if_pos h]
      apply String.ext
      simp [List.append_assoc]
    · rw [ddlPkSuggestion, if_neg h, if_neg h]

/-- C8: on unparseable input, `convertToSnowflake` reports the parser's
message prefixed with "Error parsing JSON: " and sets the DDL output to
the empty string — whatever SQL the previous state carried is cleared,
and the other state fields are untouched. -/
theorem C8_parse_error_clears_output (st : AppState) (msg : String) :
    (convertToSnowflake st (.error msg)).sqlOutput = ""
    ∧ (convertToSnowflake st (.error msg)).error = "Error parsing JSON: " ++ msg
    ∧ (convertToSnowflake st (.error msg)).jsonInput = st.jsonInput
    ∧ (convertToSnowflake st (.error msg)).tableName = st.tableName
    ∧ (convertToSnowflake st (.error msg)).silverSql = st.silverSql :=
  ⟨rfl, rfl, rfl, rfl, rfl⟩

/-- C9: the Silver generator is total (never throws): empty input yields
the explanatory placeholder, unparseable input yields the error-message
placeholder, and for a parsed schema it renders, per ordered column,
`TRIM(<name>) AS <name>` exactly when the mapped type is STRING and the
bare name otherwise, inside the fixed dynamic-table template. -/
theorem C9_silver_graceful :
    (∀ tableName parsed, generateSilverFromBronze "" tableName parsed
        = "-- No JSON input available yet")
    ∧ (∀ jsonInput tableName msg, jsonInput ≠ "" →
        generateSilverFromBronze jsonInput tableName (.error msg)
          = "-- Error generating silver query: " ++ msg)
    ∧ (∀ jsonInput tableName schema, jsonInput ≠ "" →
        generateSilverFromBronze jsonInput tableName (.ok schema)
          = "CREATE OR REPLACE DYNAMIC TABLE " ++ resolveTableName tableName schema.title
            ++ "\nTARGET_LAG= DOWNSTREAM\nWAREHOUSE=\x7b\x7benv\x7d\x7d_ANALYTICS_WH\nREFRESH_MODE = INCREMENTAL\nINITIALIZE=ON_CREATE\nAS\nWITH BRONZE AS (\n    SELECT "
            ++ String.intercalate ",\n           "
                ((sortedProps (schema.properties.getD [])).map
                    (fun nd => if mapM3TypeToSnowflake nd.2 = "STRING"
                      then "TRIM(" ++ nd.1 ++ ") AS " ++ nd.1 else nd.1)
                  ++ [rowNumLine])
            ++ ("\n    FROM \x7b\x7benv\x7d\x7d_BRONZE." ++ resolveTableName tableName schema.title ++ " b\n)\n\n")
            ++ ("SELECT *\n       EXCLUDE (" ++ String.intercalate ", " excludeCols
                ++ ")\nFROM BRONZE\nWHERE ROW_NUM = 1 AND DELETED = FALSE;\n")) := by
  refine ⟨fun tableName parsed => rfl, fun ji tn msg h => ?_, fun ji tn schema h => ?_⟩
  · simp only [generateSilverFromBronze, if_neg h]
  · simp only [generateSilverFromBronze, if_neg h]
    rfl

/-- C9, witness: the three branches at concrete inputs; the parsed-schema
branch is evaluated down to the literal Silver SQL text. -/
theorem C9_witness :
    generateSilverFromBronze "" "T" (.error "x") = "-- No JSON input available yet"
    ∧ generateSilverFromBronze "\x7b" "T" (.error "Unexpected end of JSON input")
      = "-- Error generating silver query: Unexpected end of JSON input"
    ∧ generateSilverFromBronze "\x7b\x7d" "" (.ok { title := some "T" })
      = "CREATE OR REPLACE DYNAMIC TABLE T\nTARGET_LAG= DOWNSTREAM\nWAREHOUSE=\x7b\x7benv\x7d\x7d_ANALYTICS_WH\nREFRESH_MODE = INCREMENTAL\nINITIALIZE=ON_CREATE\nAS\nWITH BRONZE AS (\n    SELECT ROW_NUMBER() OVER (PARTITION BY CONO, SUNO ORDER BY VARIATIONNUMBER DESC) AS ROW_NUM\n    FROM \x7b\x7benv\x7d\x7d_BRONZE.T b\n)\n\nSELECT *\n       EXCLUDE (ACCOUNTINGENTITY, VARIATIONNUMBER, TIMESTAMP, DELETED, ARCHIVED, ROW_NUM)\nFROM BRONZE\nWHERE ROW_NUM = 1 AND DELETED = FALSE;\n" :=
  ⟨C9_silver_graceful.1 "T" _,
    C9_silver_graceful.2.1 _ "T" _ (by decide),
    (C9_silver_graceful.2.2 "\x7b\x7d" "" _ (by decide)).trans (by decide)⟩

/-- Concrete schema for the C10 counterexample: `P` carries the explicit
falsy position 0, `Q` the positive position 1000. -/
def exC10 : SchemaDocument :=
  { properties := some
      [ ("P", { type := some "string", xPosition := some 0 }),
        ("Q", { type := some "string", xPosition := some 1000 }) ] }

/-- C10, counterexample.  The claim glosses the falsy default as
ordering the property *after all properties with positive positions*;
but the default key is 999, so the zero-positioned `P` is emitted before
the positively positioned `Q` (position 1000). -/
theorem C10_counterexample :
    (exC10.properties.getD []).map (fun nd => (nd.1, nd.2.xPosition))
      = [("P", some 0), ("Q", some 1000)]
    ∧ (sortedProps (exC10.properties.getD [])).map Prod.fst = ["P", "Q"]
    ∧ convertToSnowflakeSql exC10 ""
      = "-- Table: UNKNOWN_TABLE\n-- Description: No description\nCREATE OR ALTER TABLE UNKNOWN_TABLE (\n    P STRING,\n    Q STRING\n)" := by
  decide

/-- C10 (amended): an explicit falsy `x-position` (the integer 0) is
treated by both generators exactly as the position 999 — equivalently,
exactly as an absent `x-position`: the effective key of both is 999, and
rewriting every falsy position to 999 changes neither the generated DDL
nor the generated Silver query. -/
theorem C10_falsy_position :
    (∀ d : PropertyDescriptor, effPos { d with xPosition := some 0 } = 999
      ∧ effPos { d with xPosition := none } = 999)
    ∧ (∀ schema tableName,
        convertToSnowflakeSql (mapSchemaProps posTo999IfFalsy schema) tableName
          = convertToSnowflakeSql schema tableName)
    ∧ (∀ schema tableName,
        silverSqlOf (mapSchemaProps posTo999IfFalsy schema) tableName
          = silverSqlOf schema tableName) :=
  ⟨fun _ => ⟨rfl, rfl⟩, convertSql_posTo999, silverSqlOf_posTo999⟩

end M3Snowflake
